import Mathlib

/-!
Verification development for the real-estate backend.

The repository is a CRUD backend over a document store.  We shallowly embed
its data model and its handlers as pure Lean functions over explicit state:

* a user table is a `List User` (the schema makes `email` a unique key);
* a residency table is a `List Residency` together with a clock that supplies
  fresh identifiers and `createdAt` stamps;
* each HTTP handler becomes a function from the request data and the current
  state to a response value paired with the next state;
* a thrown JavaScript error (caught and re-raised, answered 500 by the
  framework) is an `error` constructor of the response type, while branches
  that set an explicit status code get their own constructors.
-/

namespace RealEstate

/-- Booking record embedded in a user document: `{id, date}` as pushed by
`bookVisit` (`id` is the listing identifier, `date` the visit date). -/
structure Booking where
  id : String
  date : String
deriving DecidableEq, Repr

/-- User document, after the `User` model of the schema: unique email,
optional profile fields, embedded list of booking records and list of
favorite residency identifiers. -/
structure User where
  id : String
  name : Option String
  email : String
  image : Option String
  bookedVisits : List Booking
  favResidenciesID : List String
deriving DecidableEq, Repr

/-- Lookup `prisma.user.findUnique({where: {email}})`: first user whose
email equals the key (the schema keeps emails unique, so at most one row
matches). -/
def findUser (db : List User) (email : String) : Option User :=
  db.find? (fun u => u.email == email)

/-- Update `prisma.user.update({where: {email}, data})`: apply `f` to the
row(s) whose email equals the key, leave every other row unchanged. -/
def updateUser (db : List User) (email : String) (f : User → User) : List User :=
  db.map (fun u => if u.email == email then f u else u)

/-- Response of the `createUser` handler: HTTP status paired with the
message text it sends. -/
def createUser (db : List User) (nu : User) : (Nat × String) × List User :=
  match findUser db nu.email with
  | some _ => ((201, "User already registered"), db)
  | none => ((200, "User registered successfully"), db ++ [nu])

/-- Response of the `bookVisit` handler. -/
inductive BookRes where
  | conflict (msg : String)
  | booked (msg : String)
  | error (msg : String)
deriving DecidableEq, Repr

/-- Handler `bookVisit`: fetch the user; if the fetch returns null the field
access throws (caught and re-thrown, a 500); if some stored visit already
carries the listing identifier answer 400; otherwise push `{id, date}`. -/
def bookVisit (db : List User) (email lid date : String) : BookRes × List User :=
  match findUser db email with
  | none => (.error "Cannot read properties of null", db)
  | some u =>
    if u.bookedVisits.any (fun v => v.id == lid) then
      (.conflict "This residency is already booked by you", db)
    else
      (.booked "Your visit is booked successfully",
        updateUser db email
          (fun w => { w with bookedVisits := w.bookedVisits ++ [⟨lid, date⟩] }))

/-- Handler `getAllBookings`: pure read, answers 200 with the stored list
(`null` when no user matches). -/
def getAllBookings (db : List User) (email : String) :
    Option (List Booking) × List User :=
  ((findUser db email).map User.bookedVisits, db)

/-- Response of the `cancelBooking` handler. -/
inductive CancelRes where
  | notFound (msg : String)
  | cancelled (msg : String)
  | error (msg : String)
deriving DecidableEq, Repr

/-- Handler `cancelBooking`: fetch the user (null access throws); find the
first index whose visit carries the listing identifier; answer 404 when the
index search fails, otherwise splice that entry out of the fetched list and
persist the spliced list. -/
def cancelBooking (db : List User) (email lid : String) : CancelRes × List User :=
  match findUser db email with
  | none => (.error "Cannot read properties of null", db)
  | some u =>
    match u.bookedVisits.findIdx? (fun v => v.id == lid) with
    | none => (.notFound "Booking not found", db)
    | some i =>
      (.cancelled "Booking cancelled successfully",
        updateUser db email
          (fun w => { w with bookedVisits := u.bookedVisits.eraseIdx i }))

/-- Response of the `toFav` handler. -/
inductive FavRes where
  | removed (msg : String)
  | added (msg : String)
  | error (msg : String)
deriving DecidableEq, Repr

/-- Row update used by the removal branch of `toFav`: `set` the favorite
list to the fetched list with every occurrence of the identifier filtered
out. -/
def favRemove (l : List String) (rid : String) (w : User) : User :=
  { w with favResidenciesID := l.filter (fun i => i != rid) }

/-- Row update used by the addition branch of `toFav`: `push` the
identifier onto the stored favorite list. -/
def favPush (rid : String) (w : User) : User :=
  { w with favResidenciesID := w.favResidenciesID ++ [rid] }

/-- Handler `toFav`: fetch the user (null access throws); when the favorite
list already contains the identifier, set the list to the fetched list with
every occurrence filtered out; otherwise push the identifier. -/
def toFav (db : List User) (email rid : String) : FavRes × List User :=
  match findUser db email with
  | none => (.error "Cannot read properties of null", db)
  | some u =>
    if u.favResidenciesID.contains rid then
      (.removed "Removed from favorites",
        updateUser db email (favRemove u.favResidenciesID rid))
    else
      (.added "Updated favorites",
        updateUser db email (favPush rid))

/-- Handler `getAllFavorites`: pure read, answers 200 with the stored list
(`null` when no user matches). -/
def getAllFavorites (db : List User) (email : String) :
    Option (List String) × List User :=
  ((findUser db email).map User.favResidenciesID, db)

/-- Membership of a listing identifier in the favorite list a user currently
stores (false when the user is absent). -/
def favMem (db : List User) (email rid : String) : Bool :=
  match findUser db email with
  | some u => u.favResidenciesID.contains rid
  | none => false

/-- Residency document, after the `Residency` model of the schema.
Identifiers and `createdAt` stamps are generated; we model both as natural
numbers drawn from the store clock.  `facilities` is an opaque blob, kept
as a string. -/
structure Residency where
  id : Nat
  title : String
  description : String
  price : Int
  address : String
  city : String
  country : String
  image : String
  facilities : String
  userEmail : String
  createdAt : Nat
deriving DecidableEq, Repr

/-- Request body of `createResidency` (`req.body.data`). -/
structure ResidencyInput where
  title : String
  description : String
  price : Int
  address : String
  country : String
  city : String
  facilities : String
  image : String
  userEmail : String
deriving DecidableEq, Repr

/-- Residency table plus the clock generating identifiers and creation
stamps: each successful create consumes one tick, so later creates carry
strictly larger `createdAt`. -/
structure ResidencyDB where
  rows : List Residency
  clock : Nat
deriving DecidableEq, Repr

/-- Response of the `createResidency` handler. -/
inductive CreateRes where
  | created (r : Residency)
  | uniqueErr (msg : String)
  | error (msg : String)
deriving DecidableEq, Repr

/-- Handler `createResidency`: the `owner: connect` clause requires a user
with the given email (otherwise the create throws and is answered 500); a
row with the same `(address, userEmail)` pair violates the composite unique
index, code P2002, re-thrown with the fixed message; otherwise one row is
inserted with fresh identifier and creation stamp. -/
def createResidency (users : List User) (rdb : ResidencyDB) (inp : ResidencyInput) :
    CreateRes × ResidencyDB :=
  if (findUser users inp.userEmail).isNone then
    (.error "No User record was found for a nested connect", rdb)
  else if rdb.rows.any (fun r => r.address == inp.address && r.userEmail == inp.userEmail) then
    (.uniqueErr "A residency with this address already exists", rdb)
  else
    let r : Residency :=
      { id := rdb.clock, title := inp.title, description := inp.description,
        price := inp.price, address := inp.address, city := inp.city,
        country := inp.country, image := inp.image,
        facilities := inp.facilities, userEmail := inp.userEmail,
        createdAt := rdb.clock }
    (.created r, ⟨rdb.rows ++ [r], rdb.clock + 1⟩)

/-- Ordering used by `getAllResidencies`: `a` sorts before `b` when its
creation stamp is at least as recent (`orderBy: {createdAt: "desc"}`). -/
def laterFirst (a b : Residency) : Prop := b.createdAt ≤ a.createdAt

instance : DecidableRel laterFirst := fun a b => Nat.decLe b.createdAt a.createdAt

instance : IsTotal Residency laterFirst :=
  ⟨fun a b => (Nat.le_total b.createdAt a.createdAt).imp id id⟩

instance : IsTrans Residency laterFirst :=
  ⟨fun _ _ _ hab hbc => Nat.le_trans hbc hab⟩

/-- Handler `getAllResidencies`: every stored row, sorted by creation stamp
descending; an empty table yields the empty list, not an error. -/
def getAllResidencies (rows : List Residency) : List Residency :=
  List.insertionSort laterFirst rows

/-- Handler `getResidency`: `findUnique({where: {id}})`, answered as-is, so
a miss sends a null body rather than an error status. -/
def getResidency (rows : List Residency) (lid : Nat) : Option Residency :=
  rows.find? (fun r => r.id == lid)

/-! Concrete sample data used to instantiate the theorems below. -/

/-- Sample stored user with two booked visits and one favorite. -/
def alice : User :=
  { id := "u1", name := some "Alice", email := "alice@mail.com", image := none,
    bookedVisits := [⟨"L1", "2024-01-01"⟩, ⟨"L2", "2024-01-02"⟩],
    favResidenciesID := ["L9"] }

/-- Sample stored user with no bookings and no favorites. -/
def bob : User :=
  { id := "u2", name := none, email := "bob@mail.com", image := none,
    bookedVisits := [], favResidenciesID := [] }

/-- Sample user table. -/
def sampleDB : List User := [alice, bob]

/-- Registration payload re-using an email already present in `sampleDB`. -/
def aliceAgain : User :=
  { id := "u9", name := some "Alice2", email := "alice@mail.com", image := none,
    bookedVisits := [], favResidenciesID := [] }

/-- Registration payload with a fresh email. -/
def carol : User :=
  { id := "u3", name := some "Carol", email := "carol@mail.com", image := none,
    bookedVisits := [], favResidenciesID := [] }

/-- First sample residency row (earliest creation stamp). -/
def rowA : Residency :=
  { id := 0, title := "A", description := "a", price := 10, address := "addr1",
    city := "c", country := "x", image := "i", facilities := "f",
    userEmail := "alice@mail.com", createdAt := 0 }

/-- Second sample residency row. -/
def rowB : Residency :=
  { id := 1, title := "B", description := "b", price := 20, address := "addr2",
    city := "c", country := "x", image := "i", facilities := "f",
    userEmail := "alice@mail.com", createdAt := 1 }

/-- Third sample residency row (most recent creation stamp). -/
def rowC : Residency :=
  { id := 2, title := "C", description := "c", price := 30, address := "addr3",
    city := "c", country := "x", image := "i", facilities := "f",
    userEmail := "bob@mail.com", createdAt := 2 }

/-- Sample stored residency rows with strictly increasing creation stamps. -/
def sampleRows : List Residency := [rowA, rowB, rowC]

/-- Sample residency table paired with the next clock tick. -/
def sampleRDB : ResidencyDB := ⟨sampleRows, 3⟩

/-- Sample create request that collides with the first row of `sampleRows`
on the `(address, userEmail)` pair. -/
def dupInput : ResidencyInput :=
  { title := "A again", description := "d", price := 11, address := "addr1",
    country := "x", city := "c", facilities := "f", image := "i",
    userEmail := "alice@mail.com" }

/-! Helper lemmas about lookups and updates. -/

/-- Lookup by a key that is unique across the table returns exactly the
member carrying that key. -/
theorem find?_key_unique {α β : Type} [BEq β] [LawfulBEq β]
    (key : α → β) (l : List α) (a : α) (k : β)
    (hn : (l.map key).Nodup) (ha : a ∈ l) (hk : key a = k) :
    l.find? (fun x => key x == k) = some a := by
  induction l with
  | nil => cases ha
  | cons x xs ih =>
    rw [List.map_cons, List.nodup_cons] at hn
    rcases List.mem_cons.mp ha with rfl | hmem
    · rw [List.find?_cons_of_pos _ (by simp [hk])]
    · have hxk : (key x == k) = false := by
        rw [beq_eq_false_iff_ne]
        intro hxa
        exact hn.1 (hxa.trans hk.symm ▸ List.mem_map_of_mem key hmem)
      rw [List.find?_cons_of_neg _ (by simp [hxk])]
      exact ih hn.2 hmem

/-- Looking a user up after an email-keyed update that preserves emails
gives the update applied to the original lookup. -/
theorem findUser_updateUser (db : List User) (email : String) (f : User → User)
    (hf : ∀ u, (f u).email = u.email) :
    findUser (updateUser db email f) email = (findUser db email).map f := by
  induction db with
  | nil => rfl
  | cons u db ih =>
    unfold findUser updateUser at *
    by_cases hu : u.email = email
    · rw [List.map_cons, if_pos (by simp [hu])]
      rw [List.find?_cons_of_pos _ (by simp [hf, hu]),
        List.find?_cons_of_pos _ (by simp [hu])]
      rfl
    · rw [List.map_cons, if_neg (by simp [hu])]
      rw [List.find?_cons_of_neg _ (by simp [hu]),
        List.find?_cons_of_neg _ (by simp [hu])]
      exact ih

/-- Every member of an updated table is either an untouched row with a
different email or the update applied to a row with the keyed email. -/
theorem mem_updateUser {db : List User} {email : String} {f : User → User} {w : User}
    (hw : w ∈ updateUser db email f) :
    (w ∈ db ∧ w.email ≠ email) ∨ (∃ u ∈ db, u.email = email ∧ w = f u) := by
  unfold updateUser at hw
  rcases List.mem_map.mp hw with ⟨u, hu, hval⟩
  by_cases he : u.email = email
  · right
    exact ⟨u, hu, he, by rw [← hval, if_pos (by simp [he])]⟩
  · left
    rw [← hval, if_neg (by simp [he])]
    exact ⟨hu, he⟩

/-- Filtering out an identifier removes it from `contains`. -/
theorem contains_filter_ne (l : List String) (a : String) :
    (l.filter (fun i => i != a)).contains a = false := by
  simp [List.contains_eq_any_beq]

/-- Appending an identifier makes `contains` find it. -/
theorem contains_append_self (l : List String) (a : String) :
    (l ++ [a]).contains a = true := by
  simp [List.contains_eq_any_beq]

/-- Splicing out the first index at which the listing identifier occurs
removes every occurrence, provided the stored identifiers are pairwise
distinct. -/
theorem eraseIdx_findIdx?_not_mem (lid : String) :
    ∀ (l : List Booking) (i : Nat),
      (l.map Booking.id).Nodup →
      l.findIdx? (fun v => v.id == lid) = some i →
      ∀ v ∈ l.eraseIdx i, v.id ≠ lid := by
  intro l
  induction l with
  | nil => intro i _ hi; simp [List.findIdx?] at hi
  | cons x xs ih =>
    intro i hn hi v hv
    rw [List.map_cons, List.nodup_cons] at hn
    rw [List.findIdx?_cons] at hi
    by_cases hx : x.id = lid
    · rw [if_pos (by simp [hx]), Option.some.injEq] at hi
      subst hi
      rw [List.eraseIdx_cons_zero] at hv
      intro hvlid
      exact hn.1 (hx ▸ hvlid ▸ List.mem_map_of_mem Booking.id hv)
    · rw [if_neg (by simp [hx]), List.findIdx?_succ] at hi
      rcases Option.map_eq_some'.mp hi with ⟨j, hj, hij⟩
      subst hij
      rw [List.eraseIdx_cons_succ] at hv
      rcases List.mem_cons.mp hv with rfl | hv'
      · exact hx
      · exact ih j hn.2 hj v hv'

/-- Inserting an element whose creation stamp is strictly below every stamp
in the list sends it to the end. -/
theorem orderedInsert_eq_append (x : Residency) :
    ∀ (l : List Residency), (∀ y ∈ l, x.createdAt < y.createdAt) →
      List.orderedInsert laterFirst x l = l ++ [x] := by
  intro l
  induction l with
  | nil => intro _; rfl
  | cons y ys ih =>
    intro h
    rw [List.orderedInsert, if_neg, ih (fun z hz => h z (List.mem_cons_of_mem y hz)),
      List.cons_append]
    exact Nat.not_le.mpr (h y (List.mem_cons_self y ys))

/-- Rows whose creation stamps strictly increase along the table come back
reversed from the sort. -/
theorem getAllResidencies_of_increasing (rows : List Residency)
    (h : List.Pairwise (fun a b => a.createdAt < b.createdAt) rows) :
    getAllResidencies rows = rows.reverse := by
  induction rows with
  | nil => rfl
  | cons x xs ih =>
    rw [List.pairwise_cons] at h
    unfold getAllResidencies at *
    rw [List.insertionSort, ih h.2,
      orderedInsert_eq_append x xs.reverse (fun y hy => h.1 y (List.mem_reverse.mp hy)),
      List.reverse_cons]

/-! Claim theorems. -/

/-- C1: when the booking list already holds a record with the requested
listing identifier, `bookVisit` answers the client-visible conflict (the 400
branch, not a thrown failure), stores nothing, and the booking list length
is unchanged. -/
theorem C1_duplicate_booking_rejected (db : List User) (email lid date : String)
    (u : User) (hu : findUser db email = some u)
    (hdup : ∃ v ∈ u.bookedVisits, v.id = lid) :
    (bookVisit db email lid date).1 =
      BookRes.conflict "This residency is already booked by you" ∧
    (bookVisit db email lid date).2 = db ∧
    (findUser (bookVisit db email lid date).2 email).map
      (fun w => w.bookedVisits.length) = some u.bookedVisits.length := by
  have hany : u.bookedVisits.any (fun v => v.id == lid) = true := by
    rcases hdup with ⟨v, hv, hvid⟩
    exact List.any_eq_true.mpr ⟨v, hv, by simp [hvid]⟩
  unfold bookVisit
  rw [hu]
  simp [hany, hu]

/-- C1 witness: Alice already booked listing L1, so rebooking it conflicts
and leaves the table alone. -/
theorem C1_witness :
    (bookVisit sampleDB "alice@mail.com" "L1" "2024-02-02").1 =
      BookRes.conflict "This residency is already booked by you" ∧
    (bookVisit sampleDB "alice@mail.com" "L1" "2024-02-02").2 = sampleDB := by
  have h := C1_duplicate_booking_rejected sampleDB "alice@mail.com" "L1" "2024-02-02"
    alice (by decide) (by decide)
  exact ⟨h.1, h.2.1⟩

/-- C2: when no stored record carries the requested listing identifier,
`bookVisit` reports success and the user ends with exactly the old list
plus the new record `{lid, date}` appended at the end. -/
theorem C2_book_appends (db : List User) (email lid date : String)
    (u : User) (hu : findUser db email = some u)
    (hnew : ∀ v ∈ u.bookedVisits, v.id ≠ lid) :
    (bookVisit db email lid date).1 = BookRes.booked "Your visit is booked successfully" ∧
    findUser (bookVisit db email lid date).2 email =
      some { u with bookedVisits := u.bookedVisits ++ [⟨lid, date⟩] } := by
  have hany : u.bookedVisits.any (fun v => v.id == lid) = false := by
    rw [List.any_eq_false]
    intro v hv
    simp [hnew v hv]
  unfold bookVisit
  rw [hu]
  dsimp only
  rw [if_neg (by simp [hany])]
  refine ⟨rfl, ?_⟩
  rw [findUser_updateUser db email
    (fun w => { w with bookedVisits := w.bookedVisits ++ [⟨lid, date⟩] })
    (fun w => rfl), hu]
  rfl

/-- C2 witness: booking the fresh listing L3 appends it to the end of the
booking list of Alice. -/
theorem C2_witness :
    (bookVisit sampleDB "alice@mail.com" "L3" "2024-03-03").1 =
      BookRes.booked "Your visit is booked successfully" ∧
    findUser (bookVisit sampleDB "alice@mail.com" "L3" "2024-03-03").2 "alice@mail.com" =
      some { alice with bookedVisits := alice.bookedVisits ++ [⟨"L3", "2024-03-03"⟩] } :=
  C2_book_appends sampleDB "alice@mail.com" "L3" "2024-03-03" alice
    (by decide) (by decide)

/-- C3: when a stored row already carries the requested `(address,
userEmail)` pair, the create fails with the uniqueness-violation message,
the table is unchanged, and the first listing is still retrievable by its
identifier. -/
theorem C3_address_owner_unique (users : List User) (rdb : ResidencyDB)
    (inp : ResidencyInput) (r : Residency)
    (howner : ∃ w ∈ users, w.email = inp.userEmail)
    (hr : r ∈ rdb.rows) (haddr : r.address = inp.address)
    (hown : r.userEmail = inp.userEmail)
    (hids : (rdb.rows.map Residency.id).Nodup) :
    (createResidency users rdb inp).1 =
      CreateRes.uniqueErr "A residency with this address already exists" ∧
    (createResidency users rdb inp).2 = rdb ∧
    getResidency (createResidency users rdb inp).2.rows r.id = some r := by
  have hsome : findUser users inp.userEmail ≠ none := by
    intro hn
    rw [findUser, List.find?_eq_none] at hn
    rcases howner with ⟨w, hw, hwe⟩
    exact hn w hw (by simp [hwe])
  have hdup : rdb.rows.any
      (fun x => x.address == inp.address && x.userEmail == inp.userEmail) = true :=
    List.any_eq_true.mpr ⟨r, hr, by simp [haddr, hown]⟩
  unfold createResidency
  rw [if_neg (fun hc => hsome (Option.isNone_iff_eq_none.mp hc)), if_pos hdup]
  exact ⟨rfl, rfl, find?_key_unique Residency.id rdb.rows r r.id hids hr rfl⟩

/-- C3 witness: re-creating the `(addr1, alice)` listing against the sample
table fails with the uniqueness violation and leaves `rowA` retrievable. -/
theorem C3_witness :
    (createResidency sampleDB sampleRDB dupInput).1 =
      CreateRes.uniqueErr "A residency with this address already exists" ∧
    (createResidency sampleDB sampleRDB dupInput).2 = sampleRDB ∧
    getResidency (createResidency sampleDB sampleRDB dupInput).2.rows rowA.id =
      some rowA :=
  C3_address_owner_unique sampleDB sampleRDB dupInput rowA
    (by decide) (by decide) (by decide) (by decide) (by decide)

/-- C4: registering an email that already has a row answers 201 with the
already-registered message and writes nothing, while a fresh email appends
exactly one new row. -/
theorem C4_register_idempotent (db : List User) (nu : User) :
    ((∃ u ∈ db, u.email = nu.email) →
      (createUser db nu).1 = (201, "User already registered") ∧
      (createUser db nu).2 = db) ∧
    ((∀ u ∈ db, u.email ≠ nu.email) →
      (createUser db nu).1 = (200, "User registered successfully") ∧
      (createUser db nu).2 = db ++ [nu]) := by
  constructor
  · rintro ⟨u, hu, he⟩
    have hne : findUser db nu.email ≠ none := by
      intro hn
      rw [findUser, List.find?_eq_none] at hn
      exact hn u hu (by simp [he])
    rcases Option.ne_none_iff_exists'.mp hne with ⟨w, hw⟩
    unfold createUser
    rw [hw]
    exact ⟨rfl, rfl⟩
  · intro h
    have hnone : findUser db nu.email = none := by
      rw [findUser, List.find?_eq_none]
      intro a ha
      simp [h a ha]
    unfold createUser
    rw [hnone]
    exact ⟨rfl, rfl⟩

/-- C4 witness: re-registering the email of Alice changes nothing and
answers 201; registering Carol appends exactly her row. -/
theorem C4_witness :
    (createUser sampleDB aliceAgain).1 = (201, "User already registered") ∧
    (createUser sampleDB aliceAgain).2 = sampleDB ∧
    (createUser sampleDB carol).1 = (200, "User registered successfully") ∧
    (createUser sampleDB carol).2 = sampleDB ++ [carol] := by
  refine ⟨((C4_register_idempotent sampleDB aliceAgain).1 ?_).1,
          ((C4_register_idempotent sampleDB aliceAgain).1 ?_).2,
          ((C4_register_idempotent sampleDB carol).2 ?_).1,
          ((C4_register_idempotent sampleDB carol).2 ?_).2⟩ <;> decide

/-- C9: fetching a residency by identifier yields a null body when no row
matches, and the unique matching row when one exists. -/
theorem C9_get_by_id (rows : List Residency) (lid : Nat) :
    ((∀ r ∈ rows, r.id ≠ lid) → getResidency rows lid = none) ∧
    (∀ r ∈ rows, (rows.map Residency.id).Nodup → r.id = lid →
      getResidency rows lid = some r) := by
  constructor
  · intro h
    rw [getResidency, List.find?_eq_none]
    intro a ha
    simp [h a ha]
  · intro r hr hn hid
    exact find?_key_unique Residency.id rows r lid hn hr hid

/-- C9 witness: identifier 1 fetches `rowB`; identifier 7 fetches null. -/
theorem C9_witness :
    getResidency sampleRows 7 = none ∧ getResidency sampleRows 1 = some rowB :=
  ⟨(C9_get_by_id sampleRows 7).1 (by decide),
   (C9_get_by_id sampleRows 1).2 rowB (by decide) (by decide) (by decide)⟩

/-- C10: for an email with no user row, `bookVisit`, `cancelBooking` and
`toFav` all fall into the thrown-error branch (the null fetch makes the
field access raise, answered 500), never NotFound, and the table is
unchanged. -/
theorem C10_missing_user_throws (db : List User) (email lid date rid : String)
    (h : ∀ u ∈ db, u.email ≠ email) :
    (bookVisit db email lid date).1 = BookRes.error "Cannot read properties of null" ∧
    (bookVisit db email lid date).2 = db ∧
    (cancelBooking db email lid).1 = CancelRes.error "Cannot read properties of null" ∧
    (cancelBooking db email lid).2 = db ∧
    (toFav db email rid).1 = FavRes.error "Cannot read properties of null" ∧
    (toFav db email rid).2 = db := by
  have hnone : findUser db email = none := by
    rw [findUser, List.find?_eq_none]
    intro a ha
    simp [h a ha]
  unfold bookVisit cancelBooking toFav
  rw [hnone]
  exact ⟨rfl, rfl, rfl, rfl, rfl, rfl⟩

/-- C10 witness: an unregistered email drives all three mutators into the
thrown-error branch with the sample table unchanged. -/
theorem C10_witness :
    (bookVisit sampleDB "ghost@mail.com" "L1" "2024-05-05").1 =
      BookRes.error "Cannot read properties of null" ∧
    (bookVisit sampleDB "ghost@mail.com" "L1" "2024-05-05").2 = sampleDB ∧
    (cancelBooking sampleDB "ghost@mail.com" "L1").1 =
      CancelRes.error "Cannot read properties of null" ∧
    (cancelBooking sampleDB "ghost@mail.com" "L1").2 = sampleDB ∧
    (toFav sampleDB "ghost@mail.com" "L9").1 =
      FavRes.error "Cannot read properties of null" ∧
    (toFav sampleDB "ghost@mail.com" "L9").2 = sampleDB :=
  C10_missing_user_throws sampleDB "ghost@mail.com" "L1" "2024-05-05" "L9" (by decide)

/-- C5: toggling the same listing twice for an existing user is a net no-op
on membership, and after the first toggle membership is exactly flipped. -/
theorem C5_toggle_twice (db : List User) (email rid : String) (u : User)
    (hu : findUser db email = some u) :
    favMem (toFav db email rid).2 email rid = !(favMem db email rid) ∧
    favMem ((toFav ((toFav db email rid).2) email rid).2) email rid =
      favMem db email rid := by
  have hm0 : favMem db email rid = u.favResidenciesID.contains rid := by
    unfold favMem
    rw [hu]
  by_cases hc : u.favResidenciesID.contains rid = true
  · have h1 : toFav db email rid = (FavRes.removed "Removed from favorites",
        updateUser db email (favRemove u.favResidenciesID rid)) := by
      unfold toFav
      rw [hu]
      dsimp only
      rw [if_pos hc]
    have hf1 : findUser (toFav db email rid).2 email =
        some (favRemove u.favResidenciesID rid u) := by
      rw [h1]
      dsimp only
      rw [findUser_updateUser db email (favRemove u.favResidenciesID rid)
        (fun w => rfl), hu]
      rfl
    have hm1 : favMem (toFav db email rid).2 email rid = false := by
      unfold favMem
      rw [hf1]
      exact contains_filter_ne _ _
    have hc1 : (favRemove u.favResidenciesID rid u).favResidenciesID.contains rid = false :=
      contains_filter_ne _ _
    generalize hg : (toFav db email rid).2 = db1 at hf1 hm1 ⊢
    have h2 : toFav db1 email rid = (FavRes.added "Updated favorites",
        updateUser db1 email (favPush rid)) := by
      unfold toFav
      rw [hf1]
      dsimp only
      rw [if_neg (ne_true_of_eq_false hc1)]
    have hf2 : findUser (toFav db1 email rid).2 email =
        some (favPush rid (favRemove u.favResidenciesID rid u)) := by
      rw [h2]
      dsimp only
      rw [findUser_updateUser db1 email (favPush rid) (fun w => rfl), hf1]
      rfl
    have hm2 : favMem (toFav db1 email rid).2 email rid = true := by
      unfold favMem
      rw [hf2]
      exact contains_append_self _ _
    rw [hm0, hc, hm1, hm2]
    exact ⟨rfl, rfl⟩
  · rw [Bool.not_eq_true] at hc
    have h1 : toFav db email rid = (FavRes.added "Updated favorites",
        updateUser db email (favPush rid)) := by
      unfold toFav
      rw [hu]
      dsimp only
      rw [if_neg (ne_true_of_eq_false hc)]
    have hf1 : findUser (toFav db email rid).2 email = some (favPush rid u) := by
      rw [h1]
      dsimp only
      rw [findUser_updateUser db email (favPush rid) (fun w => rfl), hu]
      rfl
    have hm1 : favMem (toFav db email rid).2 email rid = true := by
      unfold favMem
      rw [hf1]
      exact contains_append_self _ _
    have hc1 : (favPush rid u).favResidenciesID.contains rid = true :=
      contains_append_self _ _
    generalize hg : (toFav db email rid).2 = db1 at hf1 hm1 ⊢
    have h2 : toFav db1 email rid = (FavRes.removed "Removed from favorites",
        updateUser db1 email (favRemove (favPush rid u).favResidenciesID rid)) := by
      unfold toFav
      rw [hf1]
      dsimp only
      rw [if_pos hc1]
    have hf2 : findUser (toFav db1 email rid).2 email =
        some (favRemove (favPush rid u).favResidenciesID rid (favPush rid u)) := by
      rw [h2]
      dsimp only
      rw [findUser_updateUser db1 email
        (favRemove (favPush rid u).favResidenciesID rid) (fun w => rfl), hf1]
      rfl
    have hm2 : favMem (toFav db1 email rid).2 email rid = false := by
      unfold favMem
      rw [hf2]
      exact contains_filter_ne _ _
    rw [hm0, hc, hm1, hm2]
    exact ⟨rfl, rfl⟩


/-- C5 witness: listing L9 starts present for Alice, is absent after one
toggle, and is present again after two. -/
theorem C5_witness :
    favMem (toFav sampleDB "alice@mail.com" "L9").2 "alice@mail.com" "L9" =
      !(favMem sampleDB "alice@mail.com" "L9") ∧
    favMem ((toFav ((toFav sampleDB "alice@mail.com" "L9").2) "alice@mail.com" "L9").2)
      "alice@mail.com" "L9" = favMem sampleDB "alice@mail.com" "L9" :=
  C5_toggle_twice sampleDB "alice@mail.com" "L9" alice (by decide)

/-- C6: for an existing user, cancelling reports NotFound and stores
nothing exactly when no booking carries the listing identifier; when one
does, the entry at the first matching index is spliced out and persisted,
and under pairwise-distinct stored identifiers the listing no longer
appears in a subsequent `getAllBookings` read. -/
theorem C6_cancel_semantics (db : List User) (email lid : String) (u : User)
    (hu : findUser db email = some u) :
    ((∀ v ∈ u.bookedVisits, v.id ≠ lid) →
      (cancelBooking db email lid).1 = CancelRes.notFound "Booking not found" ∧
      (cancelBooking db email lid).2 = db) ∧
    ((∃ v ∈ u.bookedVisits, v.id = lid) →
      ∃ i, u.bookedVisits.findIdx? (fun v => v.id == lid) = some i ∧
        (cancelBooking db email lid).1 =
          CancelRes.cancelled "Booking cancelled successfully" ∧
        (getAllBookings (cancelBooking db email lid).2 email).1 =
          some (u.bookedVisits.eraseIdx i) ∧
        ((u.bookedVisits.map Booking.id).Nodup →
          ∀ v ∈ u.bookedVisits.eraseIdx i, v.id ≠ lid)) := by
  constructor
  · intro h
    have hnone : u.bookedVisits.findIdx? (fun v => v.id == lid) = none := by
      rw [List.findIdx?_eq_none_iff]
      intro v hv
      simp [h v hv]
    unfold cancelBooking
    rw [hu]
    dsimp only
    rw [hnone]
    exact ⟨rfl, rfl⟩
  · intro h
    have hne : u.bookedVisits.findIdx? (fun v => v.id == lid) ≠ none := by
      intro hn
      rw [List.findIdx?_eq_none_iff] at hn
      rcases h with ⟨v, hv, hvid⟩
      have := hn v hv
      simp [hvid] at this
    rcases Option.ne_none_iff_exists'.mp hne with ⟨i, hi⟩
    refine ⟨i, hi, ?_⟩
    unfold cancelBooking
    rw [hu]
    dsimp only
    rw [hi]
    refine ⟨rfl, ?_, fun hnd => eraseIdx_findIdx?_not_mem lid u.bookedVisits i hnd hi⟩
    unfold getAllBookings
    rw [findUser_updateUser db email
      (fun w => { w with bookedVisits := u.bookedVisits.eraseIdx i })
      (fun w => rfl), hu]
    rfl

/-- C6 witness: cancelling the unbooked L7 reports NotFound with the table
unchanged; cancelling the booked L2 splices it out and the subsequent read
no longer contains it. -/
theorem C6_witness :
    ((cancelBooking sampleDB "alice@mail.com" "L7").1 =
      CancelRes.notFound "Booking not found" ∧
     (cancelBooking sampleDB "alice@mail.com" "L7").2 = sampleDB) ∧
    (∃ i, alice.bookedVisits.findIdx? (fun v => v.id == "L2") = some i ∧
      (cancelBooking sampleDB "alice@mail.com" "L2").1 =
        CancelRes.cancelled "Booking cancelled successfully" ∧
      (getAllBookings (cancelBooking sampleDB "alice@mail.com" "L2").2
        "alice@mail.com").1 = some (alice.bookedVisits.eraseIdx i) ∧
      ((alice.bookedVisits.map Booking.id).Nodup →
        ∀ v ∈ alice.bookedVisits.eraseIdx i, v.id ≠ "L2")) :=
  ⟨(C6_cancel_semantics sampleDB "alice@mail.com" "L7" alice (by decide)).1 (by decide),
   (C6_cancel_semantics sampleDB "alice@mail.com" "L2" alice (by decide)).2 (by decide)⟩

/-- C7: the list-all operation returns a permutation of every stored row,
sorted most-recent-first; the empty table yields the empty list (a valid
result, not an error); and rows whose creation stamps strictly increase
(listings created in sequence) come back in reverse creation order. -/
theorem C7_list_ordered (rows : List Residency) :
    (getAllResidencies rows).Perm rows ∧
    List.Sorted laterFirst (getAllResidencies rows) ∧
    getAllResidencies [] = [] ∧
    (List.Pairwise (fun a b => a.createdAt < b.createdAt) rows →
      getAllResidencies rows = rows.reverse) :=
  ⟨List.perm_insertionSort laterFirst rows,
   List.sorted_insertionSort laterFirst rows,
   rfl,
   getAllResidencies_of_increasing rows⟩

/-- C7 witness: the three sample rows, created in sequence, come back in
reverse creation order. -/
theorem C7_witness : getAllResidencies sampleRows = sampleRows.reverse :=
  (C7_list_ordered sampleRows).2.2.2 (by decide)

/-- C8: starting from a table whose emails are unique (the schema
invariant) and whose booking lists all carry pairwise-distinct listing
identifiers, each mutator leaves every stored booking list with
pairwise-distinct identifiers, and the two reads leave the table
untouched. -/
theorem C8_booking_ids_nodup_preserved (db : List User)
    (email lid date rid : String)
    (hmail : (db.map User.email).Nodup)
    (hinv : ∀ u ∈ db, (u.bookedVisits.map Booking.id).Nodup) :
    (∀ w ∈ (bookVisit db email lid date).2, (w.bookedVisits.map Booking.id).Nodup) ∧
    (∀ w ∈ (cancelBooking db email lid).2, (w.bookedVisits.map Booking.id).Nodup) ∧
    (∀ w ∈ (toFav db email rid).2, (w.bookedVisits.map Booking.id).Nodup) ∧
    (getAllBookings db email).2 = db ∧
    (getAllFavorites db email).2 = db := by
  refine ⟨?_, ?_, ?_, rfl, rfl⟩
  · unfold bookVisit
    cases hfu : findUser db email with
    | none => exact hinv
    | some u =>
      dsimp only
      by_cases hany : (u.bookedVisits.any fun v => v.id == lid) = true
      · rw [if_pos hany]
        exact hinv
      · rw [if_neg hany]
        intro w hw
        rcases mem_updateUser hw with ⟨hwdb, _⟩ | ⟨x, hx, hxe, rfl⟩
        · exact hinv w hwdb
        · have hxfind : findUser db email = some x :=
            find?_key_unique User.email db x email hmail hx hxe
          rw [hfu] at hxfind
          injection hxfind with hx'
          subst hx'
          have hu : u ∈ db := List.mem_of_find?_eq_some hfu
          have hnotin : lid ∉ u.bookedVisits.map Booking.id := by
            intro hmem
            rcases List.mem_map.mp hmem with ⟨v, hv, hvid⟩
            exact hany (List.any_eq_true.mpr ⟨v, hv, by simp [hvid]⟩)
          have : ((u.bookedVisits ++ [Booking.mk lid date]).map Booking.id).Nodup := by
            rw [List.map_append]
            simp [List.nodup_append, hinv u hu, hnotin]
          exact this
  · unfold cancelBooking
    cases hfu : findUser db email with
    | none => exact hinv
    | some u =>
      dsimp only
      cases hfi : u.bookedVisits.findIdx? (fun v => v.id == lid) with
      | none => exact hinv
      | some i =>
        dsimp only
        intro w hw
        rcases mem_updateUser hw with ⟨hwdb, _⟩ | ⟨x, hx, _, rfl⟩
        · exact hinv w hwdb
        · have hu : u ∈ db := List.mem_of_find?_eq_some hfu
          exact (hinv u hu).sublist
            ((List.eraseIdx_sublist u.bookedVisits i).map Booking.id)
  · unfold toFav
    cases hfu : findUser db email with
    | none => exact hinv
    | some u =>
      dsimp only
      by_cases hc : u.favResidenciesID.contains rid = true
      · rw [if_pos hc]
        intro w hw
        rcases mem_updateUser hw with ⟨hwdb, _⟩ | ⟨x, hx, _, rfl⟩
        · exact hinv w hwdb
        · exact hinv x hx
      · rw [if_neg hc]
        intro w hw
        rcases mem_updateUser hw with ⟨hwdb, _⟩ | ⟨x, hx, _, rfl⟩
        · exact hinv w hwdb
        · exact hinv x hx

/-- C8 witness: the sample table satisfies both invariants and each
operation output keeps the booking identifiers pairwise distinct. -/
theorem C8_witness :
    (∀ w ∈ (bookVisit sampleDB "alice@mail.com" "L1" "2024-09-09").2,
      (w.bookedVisits.map Booking.id).Nodup) ∧
    (∀ w ∈ (cancelBooking sampleDB "alice@mail.com" "L1").2,
      (w.bookedVisits.map Booking.id).Nodup) ∧
    (∀ w ∈ (toFav sampleDB "alice@mail.com" "L9").2,
      (w.bookedVisits.map Booking.id).Nodup) ∧
    (getAllBookings sampleDB "alice@mail.com").2 = sampleDB ∧
    (getAllFavorites sampleDB "alice@mail.com").2 = sampleDB :=
  C8_booking_ids_nodup_preserved sampleDB "alice@mail.com" "L1" "2024-09-09" "L9"
    (by decide) (by decide)

end RealEstate
